import Mathlib

/-!
Verification development for the earthquake reverse-geocoding pipeline
(`scripts/enrich_eq_locations.py`, `scripts/pipeline_utils.py`,
`scripts/area_aggregation.py`).

The Python float computations of the geometry kernel are modelled over the
real numbers (the spec itself only promises spherical-earth approximation,
not IEEE-754 bit behaviour).  The tabular (pandas/geopandas) pipeline is
modelled over exact rationals and lists; the external geometric predicates
supplied by shapely/geopandas (point-in-polygon tests and projected
distances) are taken as explicit functional parameters, since they are
library collaborators rather than code of this repository.
-/

/- ------------------------------------------------------------------ -/
/- Geometry and distance kernel (enrich_eq_locations.py lines 131-166) -/
/- ------------------------------------------------------------------ -/

/-- Degrees-to-radians conversion (`math.radians`). -/
noncomputable def radiansOf (x : ℝ) : ℝ := x * Real.pi / 180

/-- Radians-to-degrees conversion (`math.degrees`). -/
noncomputable def degreesOf (x : ℝ) : ℝ := x * 180 / Real.pi

/-- Two-argument arctangent (`math.atan2`), by its standard piecewise
definition; `math.atan2(0, 0) = 0` as in C. -/
noncomputable def atan2 (y x : ℝ) : ℝ :=
  if 0 < x then Real.arctan (y / x)
  else if x < 0 ∧ 0 ≤ y then Real.arctan (y / x) + Real.pi
  else if x < 0 ∧ y < 0 then Real.arctan (y / x) - Real.pi
  else if x = 0 ∧ 0 < y then Real.pi / 2
  else if x = 0 ∧ y < 0 then -(Real.pi / 2)
  else 0

/-- Python float modulo with a positive modulus:
`x % m = x - m * floor (x / m)`. -/
noncomputable def pymod (x m : ℝ) : ℝ := x - m * ⌊x / m⌋

/-- Local `a` of `_haversine_km` (enrich_eq_locations.py line 164). -/
noncomputable def haversineA (lat1 lon1 lat2 lon2 : ℝ) : ℝ :=
  Real.sin (radiansOf (lat2 - lat1) / 2) ^ 2 +
    Real.cos (radiansOf lat1) * Real.cos (radiansOf lat2) *
      Real.sin (radiansOf (lon2 - lon1) / 2) ^ 2

/-- Embedding of `_haversine_km` (enrich_eq_locations.py lines 160-166): great-circle
distance with mean Earth radius `R = 6371.0088` km,
`c = 2 * atan2(sqrt a, sqrt (1 - a))`, result `R * c`. -/
noncomputable def _haversine_km (lat1 lon1 lat2 lon2 : ℝ) : ℝ :=
  6371.0088 *
    (2 * atan2 (Real.sqrt (haversineA lat1 lon1 lat2 lon2))
      (Real.sqrt (1 - haversineA lat1 lon1 lat2 lon2)))

/-- Embedding of `_bearing_deg` (enrich_eq_locations.py lines 131-138): initial bearing
from point 1 to point 2 in degrees, wrapped by `(brng + 360.0) % 360.0`. -/
noncomputable def _bearing_deg (lat1 lon1 lat2 lon2 : ℝ) : ℝ :=
  pymod
    (degreesOf (atan2
      (Real.sin (radiansOf (lon2 - lon1)) * Real.cos (radiansOf lat2))
      (Real.cos (radiansOf lat1) * Real.sin (radiansOf lat2) -
        Real.sin (radiansOf lat1) * Real.cos (radiansOf lat2) *
          Real.cos (radiansOf (lon2 - lon1)))) + 360.0)
    360.0

theorem radiansOf_zero : radiansOf 0 = 0 := by
  unfold radiansOf; ring

theorem haversineA_self (lat lon : ℝ) : haversineA lat lon lat lon = 0 := by
  unfold haversineA
  rw [sub_self, sub_self, radiansOf_zero]
  simp

theorem haversineA_symm (lat1 lon1 lat2 lon2 : ℝ) :
    haversineA lat1 lon1 lat2 lon2 = haversineA lat2 lon2 lat1 lon1 := by
  unfold haversineA
  rw [show radiansOf (lat1 - lat2) = -(radiansOf (lat2 - lat1)) from by
        unfold radiansOf; ring,
      show radiansOf (lon1 - lon2) = -(radiansOf (lon2 - lon1)) from by
        unfold radiansOf; ring,
      neg_div, neg_div, Real.sin_neg, Real.sin_neg]
  ring

theorem atan2_zero_one : atan2 0 1 = 0 := by
  unfold atan2
  rw [if_pos one_pos]
  simp

/-- Bounds of the wrapped modulo: for a positive modulus the result is in
`[0, m)`. -/
theorem pymod_bounds (x m : ℝ) (hm : 0 < m) : 0 ≤ pymod x m ∧ pymod x m < m := by
  have hf : pymod x m = m * Int.fract (x / m) := by
    unfold pymod Int.fract
    field_simp
  constructor
  · rw [hf]
    exact mul_nonneg hm.le (Int.fract_nonneg _)
  · rw [hf]
    calc m * Int.fract (x / m) < m * 1 :=
          (mul_lt_mul_left hm).mpr (Int.fract_lt_one _)
    _ = m := mul_one m

/-- C7. Haversine metric properties: the embedded `_haversine_km` (mean
Earth radius 6371.0088 km) returns 0 on identical points and is symmetric
in its two argument points. -/
theorem haversine_km_props :
    (∀ lat lon : ℝ, _haversine_km lat lon lat lon = 0) ∧
    (∀ lat1 lon1 lat2 lon2 : ℝ,
      _haversine_km lat1 lon1 lat2 lon2 = _haversine_km lat2 lon2 lat1 lon1) := by
  constructor
  · intro lat lon
    unfold _haversine_km
    rw [haversineA_self]
    simp [atan2_zero_one]
  · intro lat1 lon1 lat2 lon2
    unfold _haversine_km
    rw [haversineA_symm]

/-- C8. Bearing range: the embedded `_bearing_deg` always returns a value in
the half-open interval `[0, 360)`. -/
theorem bearing_deg_range (lat1 lon1 lat2 lon2 : ℝ) :
    0 ≤ _bearing_deg lat1 lon1 lat2 lon2 ∧ _bearing_deg lat1 lon1 lat2 lon2 < 360 := by
  unfold _bearing_deg
  have h := pymod_bounds
    (degreesOf (atan2
      (Real.sin (radiansOf (lon2 - lon1)) * Real.cos (radiansOf lat2))
      (Real.cos (radiansOf lat1) * Real.sin (radiansOf lat2) -
        Real.sin (radiansOf lat1) * Real.cos (radiansOf lat2) *
          Real.cos (radiansOf (lon2 - lon1)))) + 360.0)
    360.0 (by norm_num)
  rw [show (360 : ℝ) = 360.0 from by norm_num]
  exact h

/- ------------------------------------------------------------------ -/
/- Compass labels and display rounding (lines 147-157, 394)            -/
/- ------------------------------------------------------------------ -/

/-- The 16-wind direction table of `_bearing_to_cardinal_16`. -/
def dirs16 : List String :=
  ["N", "NNE", "NE", "ENE",
   "E", "ESE", "SE", "SSE",
   "S", "SSW", "SW", "WSW",
   "W", "WNW", "NW", "NNW"]

/-- Embedding of `_bearing_to_cardinal_16` (enrich_eq_locations.py lines 147-157):
`dirs[int((bearing + 11.25) // 22.5) % 16]`.  The index
`(floor ((bearing + 11.25) / 22.5)) % 16` is computed here on the
numerator/denominator of the rational so that the kernel can evaluate it;
`bearing_to_cardinal_16_spec` proves it equal to the source formula.
The index is always in `[0, 16)`, so the `getD` default is never used. -/
def _bearing_to_cardinal_16 (bearing : ℚ) : String :=
  dirs16.getD
    ((((4 * bearing.num + 45 * (bearing.den : ℤ)) / (90 * (bearing.den : ℤ))) % 16).toNat)
    "N"

theorem floor_shift_scale (b : ℚ) :
    (4 * b.num + 45 * (b.den : ℤ)) / (90 * (b.den : ℤ)) = ⌊(b + 11.25) / 22.5⌋ := by
  have hden : ((b.den : ℚ)) ≠ 0 := Nat.cast_ne_zero.mpr b.den_nz
  have hb : (b.num : ℚ) = b * (b.den : ℚ) := (div_eq_iff hden).mp (Rat.num_div_den b)
  have h1 : (b + 11.25) / 22.5 =
      ((4 * b.num + 45 * (b.den : ℤ) : ℤ) : ℚ) / ((90 * b.den : ℕ) : ℚ) := by
    rw [div_eq_div_iff (by norm_num) (by positivity)]
    push_cast [hb]
    ring
  rw [h1, Rat.floor_intCast_div_natCast]
  push_cast
  ring_nf

/-- The embedded compass function agrees with the source formula
`dirs[int((bearing + 11.25) // 22.5) % 16]` stated with rational
arithmetic. -/
theorem bearing_to_cardinal_16_spec (bearing : ℚ) :
    _bearing_to_cardinal_16 bearing =
      dirs16.getD ((⌊(bearing + 11.25) / 22.5⌋ % 16).toNat) "N" := by
  unfold _bearing_to_cardinal_16
  rw [floor_shift_scale]

/-- Python rounding of a float (half-to-even), as applied
by `int(round(dist_km))` in `_loc_text` (line 394).  The comparison of the
fractional part with 1/2 is carried out on the numerator/denominator;
`pyRound_spec` restates it with rational arithmetic. -/
def pyRound (q : ℚ) : ℤ :=
  if 2 * (q.num - ⌊q⌋ * q.den) < (q.den : ℤ) then ⌊q⌋
  else if (q.den : ℤ) < 2 * (q.num - ⌊q⌋ * q.den) then ⌊q⌋ + 1
  else if ⌊q⌋ % 2 = 0 then ⌊q⌋ else ⌊q⌋ + 1

theorem fract_lt_half_iff (q : ℚ) :
    (2 * (q.num - ⌊q⌋ * q.den) < (q.den : ℤ)) ↔ (q - ⌊q⌋ < 1 / 2) := by
  have hden : (0 : ℚ) < (q.den : ℚ) := by exact_mod_cast q.pos
  have hb : (q.num : ℚ) = q * (q.den : ℚ) := (div_eq_iff hden.ne').mp (Rat.num_div_den q)
  rw [show ((2 * (q.num - ⌊q⌋ * q.den)) < (q.den : ℤ)) ↔
      ((2 * (q.num - ⌊q⌋ * q.den) : ℤ) : ℚ) < ((q.den : ℤ) : ℚ) from by exact_mod_cast Iff.rfl]
  push_cast [hb]
  constructor
  · intro h; nlinarith
  · intro h; nlinarith

theorem half_lt_fract_iff (q : ℚ) :
    ((q.den : ℤ) < 2 * (q.num - ⌊q⌋ * q.den)) ↔ (1 / 2 < q - ⌊q⌋) := by
  have hden : (0 : ℚ) < (q.den : ℚ) := by exact_mod_cast q.pos
  have hb : (q.num : ℚ) = q * (q.den : ℚ) := (div_eq_iff hden.ne').mp (Rat.num_div_den q)
  rw [show ((q.den : ℤ) < (2 * (q.num - ⌊q⌋ * q.den))) ↔
      ((q.den : ℤ) : ℚ) < ((2 * (q.num - ⌊q⌋ * q.den) : ℤ) : ℚ) from by exact_mod_cast Iff.rfl]
  push_cast [hb]
  constructor
  · intro h; nlinarith
  · intro h; nlinarith

/-- The embedded rounding agrees with half-to-even rounding stated with
rational arithmetic on the fractional part. -/
theorem pyRound_spec (q : ℚ) :
    pyRound q =
      if q - ⌊q⌋ < 1 / 2 then ⌊q⌋
      else if 1 / 2 < q - ⌊q⌋ then ⌊q⌋ + 1
      else if ⌊q⌋ % 2 = 0 then ⌊q⌋ else ⌊q⌋ + 1 := by
  unfold pyRound
  rw [if_congr (fract_lt_half_iff q) rfl rfl,
      if_congr (half_lt_fract_iff q) rfl rfl]

/- ------------------------------------------------------------------ -/
/- Location-text composer (`_loc_text`, lines 375-410)                  -/
/- ------------------------------------------------------------------ -/

/-- Python truthiness-plus-`pd.isna` test `p and not pd.isna(p)` applied to
an optional string: true exactly for a present, non-empty string. -/
def pyTruthy : Option String → Bool
  | some s => s != ""
  | none => false

/-- Value of a present optional string for interpolation (only consulted
when `pyTruthy` holds). -/
def optVal : Option String → String
  | some s => s
  | none => ""

/-- Comma join `", ".join(parts)`. -/
def joinComma : List String → String
  | [] => ""
  | [s] => s
  | s :: rest => s ++ ", " ++ joinComma rest

/-- Formatting tail of `_loc_text` (enrich_eq_locations.py lines 393-406),
factored over the already-computed `dist_km` and `bearing` (in the source
these are produced immediately above by `_haversine_km`/`_bearing_deg`):
`km_txt = f"{int(round(dist_km))}km"`, the offshore phrasing preferring
`admin1` then `country` "coast" variants, and the on-land phrasing
`"{km_txt} {card} of {city}"` with the comma-joined `[admin1, country]`
tail that keeps only present, non-empty parts. -/
def locTextCore (distKm bearing : ℚ) (city : String) (a1 ctry : Option String)
    (offshore : Bool) : Option String :=
  let card := _bearing_to_cardinal_16 bearing
  let kmTxt := toString (pyRound distKm) ++ "km"
  if offshore && pyTruthy a1 then
    some (kmTxt ++ " " ++ card ++ " of " ++ optVal a1 ++ " coast")
  else if offshore && pyTruthy ctry then
    some (kmTxt ++ " " ++ card ++ " of " ++ optVal ctry ++ " coast")
  else
    let head := kmTxt ++ " " ++ card ++ " of " ++ city
    let tail := joinComma (([a1, ctry].filter pyTruthy).map optVal)
    if tail == "" then some head else some (head ++ ", " ++ tail)

/-- C4 counterexample.  At exactly the claimed scenario (on-land point,
nearest place "Example City" 12.4 km away, bearing 202 degrees,
admin-region "North", country "TestLand") the composed text is
`"12km SSW of Example City, North, TestLand"` — there is no space between
the rounded distance and "km" — so it differs from the claimed
`"12 km SSW of Example City, North, TestLand"`. -/
theorem loc_text_space_counterexample :
    locTextCore (mkRat 62 5) 202 "Example City" (some "North") (some "TestLand") false ≠
      some "12 km SSW of Example City, North, TestLand" ∧
    locTextCore (mkRat 62 5) 202 "Example City" (some "North") (some "TestLand") false =
      some "12km SSW of Example City, North, TestLand" := by
  constructor
  · decide
  · decide

/-- C4 (amended).  On-land location text: the scenario of the claim yields
exactly `"12km SSW of Example City, North, TestLand"` (no space before
"km"; distance rounded to the nearest whole kilometre, 16-point compass
label, comma-joined admin-region/country tail), and in general for an
on-land point with known non-empty admin-region and country the phrasing is
`"<dist>km <compass> of <place>, <admin_region>, <country>"`. -/
theorem loc_text_onland :
    (locTextCore (mkRat 62 5) 202 "Example City" (some "North") (some "TestLand") false =
      some "12km SSW of Example City, North, TestLand") ∧
    (∀ (d b : ℚ) (city a1 ctry : String), a1 ≠ "" → ctry ≠ "" →
      locTextCore d b city (some a1) (some ctry) false =
        some (toString (pyRound d) ++ "km" ++ " " ++ _bearing_to_cardinal_16 b ++
          " of " ++ city ++ ", " ++ (a1 ++ ", " ++ ctry))) := by
  constructor
  · decide
  · intro d b city a1 ctry h1 h2
    have t1 : pyTruthy (some a1) = true := by simp [pyTruthy, h1]
    have t2 : pyTruthy (some ctry) = true := by simp [pyTruthy, h2]
    have hne : ¬(a1 ++ ", " ++ ctry = "") := by
      intro hh
      have hlen := congrArg String.length hh
      simp [String.length_append] at hlen
      exact absurd hlen.1.2 (by decide)
    simp [locTextCore, List.filter, t1, t2, joinComma, optVal, hne]

/-- Closed witness for the hypotheses of `loc_text_onland`. -/
theorem loc_text_onland_witness :
    locTextCore 7 10 "X" (some "A") (some "B") false =
      some (toString (pyRound (7 : ℚ)) ++ "km" ++ " " ++ _bearing_to_cardinal_16 10 ++
        " of " ++ "X" ++ ", " ++ ("A" ++ ", " ++ "B")) :=
  loc_text_onland.2 7 10 "X" "A" "B" (by decide) (by decide)

/- ------------------------------------------------------------------ -/
/- Country reconciliation (`_reconcile_country`, lines 327-344)        -/
/- ------------------------------------------------------------------ -/

/-- Test `city_iso in code_to_country and ctry != code_to_country.get(city_iso)`
(line 340).  The `code_to_country` dict is modelled as an association list in
which the first binding for a key wins (this is exactly
`drop_duplicates("iso_a2", keep="first") ... .to_dict()`); values are
optional strings because the admin-0 `country` attribute can itself be
missing. -/
def lookupDisagrees (m : List (String × Option String)) (iso : String)
    (ctry : Option String) : Bool :=
  match m.lookup iso with
  | some v => ctry != v
  | none => false

/-- Embedding of `_reconcile_country` (enrich_eq_locations.py lines 333-342): when the
country code and distance of the nearest city are present, and the resolved
country is missing or disagrees with the country of that code while the distance
is at most 150000 m, return `code_to_country.get(city_iso, ctry)`;
otherwise return the country unchanged. -/
def _reconcile_country (m : List (String × Option String)) (ctry cityIso : Option String)
    (distM : Option ℚ) : Option String :=
  match cityIso, distM with
  | some iso, some d =>
    if (ctry = none ∨ lookupDisagrees m iso ctry = true) ∧ d ≤ 150000 then
      match m.lookup iso with
      | some v => v
      | none => ctry
    else ctry
  | some _, none => ctry
  | none, _ => ctry

/-- C1. Country reconciliation: whenever the country code of the nearest place is
known and maps to a country `cc`, and the nearest-place distance is known,
the resolved country is overridden to `cc` exactly when it is unset or
differs from `cc` and the distance is at most 150 km (150000 m in the
projected metric); in all other cases — agreement, distance above 150 km,
or unknown code/distance — it is left unchanged. -/
theorem reconcile_country_cases (m : List (String × Option String))
    (ctry : Option String) (iso : String) (d : ℚ) (cc : String)
    (hm : m.lookup iso = some (some cc)) :
    ((ctry = none ∨ ctry ≠ some cc) → d ≤ 150000 →
      _reconcile_country m ctry (some iso) (some d) = some cc) ∧
    (ctry = some cc → _reconcile_country m ctry (some iso) (some d) = ctry) ∧
    (150000 < d → _reconcile_country m ctry (some iso) (some d) = ctry) ∧
    (∀ dm, _reconcile_country m ctry none dm = ctry) ∧
    (∀ i, _reconcile_country m ctry (some i) none = ctry) := by
  have hld : lookupDisagrees m iso ctry = (ctry != some cc) := by
    simp [lookupDisagrees, hm]
  refine ⟨?_, ?_, ?_, fun dm => rfl, fun i => rfl⟩
  · intro hdis hd
    have hOr : ctry = none ∨ lookupDisagrees m iso ctry = true := by
      rcases hdis with h | h
      · exact Or.inl h
      · exact Or.inr (by simp [hld, bne_iff_ne, h])
    simp only [_reconcile_country, hm]
    rw [if_pos ⟨hOr, hd⟩]
  · intro hec
    subst hec
    have hnc : ¬((some cc = none ∨ lookupDisagrees m iso (some cc) = true) ∧ d ≤ 150000) := by
      intro hcond
      rcases hcond.1 with h | h
      · exact Option.noConfusion h
      · rw [hld] at h
        simp at h
    simp only [_reconcile_country]
    rw [if_neg hnc]
  · intro hgt
    have hnc : ¬((ctry = none ∨ lookupDisagrees m iso ctry = true) ∧ d ≤ 150000) := by
      intro hcond
      exact absurd hcond.2 (not_le.mpr hgt)
    simp only [_reconcile_country]
    rw [if_neg hnc]

/-- Closed witness for `reconcile_country_cases`: a point resolved to
"Jordan" whose nearest city is coded "IL" (mapping to "Israel") at 50 km is
overridden to "Israel". -/
theorem reconcile_country_cases_witness :
    _reconcile_country [("IL", some "Israel")] (some "Jordan") (some "IL") (some 50000) =
      some "Israel" :=
  (reconcile_country_cases [("IL", some "Israel")] (some "Jordan") "IL" 50000 "Israel"
    (by decide)).1 (Or.inr (by decide)) (by decide)

/- ------------------------------------------------------------------ -/
/- Area aggregation (`area_aggregation.py`)                            -/
/- ------------------------------------------------------------------ -/

/-- A successful association-list lookup returns a binding of the list. -/
theorem lookup_mem_of_eq_some {α β : Type} [BEq α] [LawfulBEq α]
    (l : List (α × β)) (k : α) (v : β) (h : List.lookup k l = some v) : (k, v) ∈ l := by
  induction l with
  | nil => simp [List.lookup] at h
  | cons p rest ih =>
    obtain ⟨a, b⟩ := p
    rw [List.lookup] at h
    cases hbeq : (k == a) with
    | true =>
      rw [hbeq] at h
      simp only [Option.some.injEq] at h
      subst h
      have hk : k = a := eq_of_beq hbeq
      subst hk
      exact List.mem_cons_self _ _
    | false =>
      rw [hbeq] at h
      exact List.mem_cons_of_mem _ (ih h)

/-- Python `str.strip()` on both ends (whitespace).  `String.trim` itself is
not kernel-reducible, so the equivalent list-based form is used. -/
def pyStrip (s : String) : String :=
  String.mk (((s.toList.dropWhile Char.isWhitespace).reverse.dropWhile Char.isWhitespace).reverse)

/-- Embedding of `_norm` (area_aggregation.py lines 21-28): a missing value becomes the empty string; otherwise
strip, NFKD-deaccent, lowercase.  NFKD normalization and combining-mark
removal are the identity on every character occurring in the module
string literals (ASCII plus U+2019/U+02BC/U+02BF, none of which decompose
or are combining), so they are omitted; lowercasing is ASCII `toLower`
(the identity on those non-ASCII characters, as in Python). -/
def _norm (s : Option String) : String :=
  match s with
  | none => ""
  | some t => String.mk ((pyStrip t).toList.map Char.toLower)

/-- Cyprus country aliases guarded locally in `aggregate_area`
(area_aggregation.py lines 12-18). -/
def cyprusAliasList : List String :=
  ["akrotiri", "dhekelia", "n.cyprus", "n. cyprus", "n cyprus",
   "north cyprus", "northern cyprus",
   "cyprus u.n. buffer", "cyprus un buffer",
   "cyprus u.n. buffer zone", "cyprus un buffer zone",
   "akrotiri sovereign base area", "dhekelia cantonment"]

/-- Country-key normalization of `aggregate_area` (lines 39-48): `_norm`,
then the Cyprus alias guard, then the Saudi variants. -/
def countryKey (country : Option String) : String :=
  let c0 := _norm country
  let c1 := if c0 ∈ cyprusAliasList then "cyprus" else c0
  if c1 ∈ ["saudi", "saudi arabia", "kingdom of saudi arabia"] then "saudi arabia" else c1

/-- Area-key normalization of `aggregate_area` (lines 50-64): `_norm`, then
the Ma\x27an, Bekaa, As-Suwayda and Sharqia variant folds, in source order. -/
def areaKey (ar : String) : String :=
  let a0 := _norm (some ar)
  let a1 := if a0 ∈ ["ma\x27an", "maan", "ma’ an", "maʼan", "maʿan"]
    then "ma\x27an" else a0
  let a2 := if a1 ∈ ["beqaa", "bekaa", "beqa", "beqaa valley"] then "beqaa" else a1
  let a3 := if a2 ∈ ["as suwayda", "suwayda", "as-suwayda"] then "as-suwayda" else a2
  if a3 ∈ ["ash sharqiyah", "ash sharqiyah province", "eastern province"]
    then "al sharqia" else a3

/-- The nested `mapping` dict of `aggregate_area` (lines 66-106), as an
association list (first binding wins, as in a Python dict literal without
duplicate keys). -/
def areaMapping : List (String × List (String × String)) :=
  [("syria",
    [("aleppo", "North"), ("idlib", "North"), ("latakia", "North"),
     ("tartus", "North"), ("hama", "North"),
     ("rif dimashq", "South"), ("quneitra", "South"), ("homs", "South"),
     ("daraa", "South"), ("as-suwayda", "South"),
     ("western al-samadania", "South")]),
   ("turkey",
    [("hatay", "South"), ("antalya", "South"), ("mersin", "South")]),
   ("lebanon",
    [("north", "North"), ("beirut", "North"), ("mount lebanon", "North"),
     ("beqaa", "South"), ("nabatieh", "South"), ("south", "South")]),
   ("jordan",
    [("irbid", "North"), ("ajloun", "North"), ("mafraq", "North"),
     ("amman", "Central"), ("zarqa", "Central"), ("balqa", "Central"),
     ("madaba", "Central"),
     ("ma\x27an", "South"), ("karak", "South"), ("tafilah", "South"),
     ("aqaba", "South")]),
   ("israel",
    [("tel aviv", "HaMerkaz"), ("hamerkaz", "HaMerkaz"), ("yerushalayim", "HaMerkaz"),
     ("haifa", "HaZafon"), ("hazafon", "HaZafon"),
     ("hadarom", "HaDarom")]),
   ("palestine",
    [("gaza", "Palestine"), ("west bank", "West Bank")]),
   ("cyprus",
    [("nicosia", "Cyprus"), ("limassol", "Cyprus"), ("larnaca", "Cyprus"),
     ("paphos", "Cyprus"), ("famagusta", "Cyprus"),
     ("northern cyprus", "Cyprus"), ("akrotiri", "Cyprus"), ("dhekelia", "Cyprus")]),
   ("egypt",
    [("damietta", "North"), ("port said", "North"), ("ismailia", "North"),
     ("suez", "South"), ("red sea", "South"),
     ("north sinai", "Sinai"), ("south sinai", "Sinai")]),
   ("saudi arabia",
    [("tabuk", "Northwest"), ("al-jowf", "Northwest"), ("al jowf", "Northwest"),
     ("al madinah", "Northwest"), ("al sharqia", "Northwest"),
     ("ash sharqiyah", "Northwest"), ("eastern province", "Northwest")])]

/-- Embedding of `mapping.get(c, {}).get(a)` (line 108). -/
def mappingLookup (c a : String) : Option String :=
  match areaMapping.lookup c with
  | some tbl => tbl.lookup a
  | none => none

/-- The core of `aggregate_area` on a non-empty area string, with the
country already normalized: mapping hit, else the Cyprus sovereign-base
special case (lines 112-114), else the original area unchanged. -/
def aggCore (c : String) (ar : String) : String :=
  match mappingLookup c (areaKey ar) with
  | some agg => agg
  | none =>
    if c = "cyprus" ∧
        (areaKey ar = "akrotiri sovereign base area" ∨ areaKey ar = "dhekelia cantonment") then
      "Cyprus"
    else ar

/-- Embedding of `aggregate_area` (area_aggregation.py lines 31-117). -/
def aggregate_area (country area : Option String) : Option String :=
  match area with
  | none => none
  | some ar => if pyStrip ar = "" then some ar else some (aggCore (countryKey country) ar)

/-- Every bucket the mapping table can produce is non-empty after stripping
and is a fixed point of `aggCore` under its own (normalized) country key. -/
theorem areaMapping_buckets_fixed :
    ∀ p ∈ areaMapping, ∀ q ∈ p.2, pyStrip q.2 ≠ "" ∧ aggCore p.1 q.2 = q.2 := by
  decide

/-- A successful `mappingLookup` yields a bucket that `aggCore` leaves
fixed under the same country key. -/
theorem mappingLookup_fixed (c a agg : String) (h : mappingLookup c a = some agg) :
    pyStrip agg ≠ "" ∧ aggCore c agg = agg := by
  unfold mappingLookup at h
  cases htbl : areaMapping.lookup c with
  | none => rw [htbl] at h; exact Option.noConfusion h
  | some tbl =>
    rw [htbl] at h
    simp only at h
    have hc := lookup_mem_of_eq_some areaMapping c tbl htbl
    have ha := lookup_mem_of_eq_some tbl a agg h
    exact areaMapping_buckets_fixed (c, tbl) hc (a, agg) ha

/-- C9. `aggregate_area` is idempotent for every country and area value:
the buckets it produces are fixed points under their own country, null and
empty areas pass through unchanged, and unmapped areas (no mapping hit, no
Cyprus sovereign-base special case) pass through unchanged. -/
theorem aggregate_area_idem (country area : Option String) :
    aggregate_area country (aggregate_area country area) = aggregate_area country area ∧
    aggregate_area country none = none ∧
    (∀ ar : String, pyStrip ar = "" → aggregate_area country (some ar) = some ar) ∧
    (∀ ar b : String, aggregate_area country (some ar) = some b →
      aggregate_area country (some b) = some b) ∧
    (∀ ar : String, mappingLookup (countryKey country) (areaKey ar) = none →
      ¬(countryKey country = "cyprus" ∧
        (areaKey ar = "akrotiri sovereign base area" ∨ areaKey ar = "dhekelia cantonment")) →
      aggregate_area country (some ar) = some ar) := by
  have hfix : ∀ ar b : String, aggregate_area country (some ar) = some b →
      aggregate_area country (some b) = some b := by
    intro ar b h
    simp only [aggregate_area] at h
    by_cases hstrip : pyStrip ar = ""
    · rw [if_pos hstrip] at h
      simp only [Option.some.injEq] at h
      subst h
      simp only [aggregate_area]
      rw [if_pos hstrip]
    · rw [if_neg hstrip] at h
      simp only [Option.some.injEq] at h
      unfold aggCore at h
      cases hm : mappingLookup (countryKey country) (areaKey ar) with
      | some agg =>
        rw [hm] at h
        simp only at h
        subst h
        obtain ⟨hne, hfx⟩ := mappingLookup_fixed _ _ _ hm
        simp only [aggregate_area]
        rw [if_neg hne, hfx]
      | none =>
        rw [hm] at h
        by_cases hcy : countryKey country = "cyprus" ∧
            (areaKey ar = "akrotiri sovereign base area" ∨ areaKey ar = "dhekelia cantonment")
        · rw [if_pos hcy] at h
          subst h
          simp only [aggregate_area]
          rw [if_neg (by decide), hcy.1]
          rw [show aggCore "cyprus" "Cyprus" = "Cyprus" from by decide]
        · rw [if_neg hcy] at h
          subst h
          simp only [aggregate_area]
          rw [if_neg hstrip]
          unfold aggCore
          rw [hm, if_neg hcy]
  refine ⟨?_, rfl, ?_, hfix, ?_⟩
  · cases area with
    | none => rfl
    | some ar =>
      cases hb : aggregate_area country (some ar) with
      | none =>
        simp only [aggregate_area] at hb
        by_cases hstrip : pyStrip ar = ""
        · rw [if_pos hstrip] at hb; exact Option.noConfusion hb
        · rw [if_neg hstrip] at hb; exact Option.noConfusion hb
      | some b => exact hfix ar b hb
  · intro ar hstrip
    simp only [aggregate_area]
    rw [if_pos hstrip]
  · intro ar hm hcy
    simp only [aggregate_area]
    by_cases hstrip : pyStrip ar = ""
    · rw [if_pos hstrip]
    · rw [if_neg hstrip]
      unfold aggCore
      rw [hm, if_neg hcy]

/-- Closed witness for `aggregate_area_idem`: the Lebanese governorate
"Beqaa" aggregates to "South", which is itself a fixed point; an unmapped
area passes through. -/
theorem aggregate_area_idem_witness :
    aggregate_area (some "Lebanon") (some "South") = some "South" ∧
    aggregate_area (some "France") (some "Provence") = some "Provence" :=
  ⟨(aggregate_area_idem (some "Lebanon") (some "Beqaa")).2.2.2.1 "Beqaa" "South" (by decide),
   (aggregate_area_idem (some "France") (some "Provence")).2.2.2.2 "Provence"
     (by decide) (by decide)⟩

/- ------------------------------------------------------------------ -/
/- The enrichment pipeline (`enrich_geocoding`, lines 173-418)         -/
/- ------------------------------------------------------------------ -/

/-- An input earthquake point record (columns `epiid`/`latitude`/`longitude`
of the input GeoDataFrame). -/
structure Pt where
  epiid : String
  latitude : ℚ
  longitude : ℚ
deriving DecidableEq

/-- An admin-0 (country) feature as standardized by `_load_admin0`
(lines 61-80): `country` name and optional `iso_a2` code, both nullable
attribute columns. -/
structure A0Feat where
  country : Option String
  iso : Option String
deriving DecidableEq

/-- An admin-1 feature as standardized by `_load_admin1` (lines 83-97):
`admin1` name and optional `iso_a2` linkage. -/
structure A1Feat where
  admin1 : Option String
  iso : Option String
deriving DecidableEq

/-- A populated place as produced by `_load_cities` (lines 100-124): name,
`country_code`, and its stored coordinates `city_lat`/`city_lon`. -/
structure CityFeat where
  name : String
  iso : Option String
  lat : ℚ
  lon : ℚ
deriving DecidableEq

/-- External geometric operations supplied by shapely/geopandas:
point-in-polygon predicates (`sjoin` with predicate `"within"`) and
projected EPSG:3857 distances (the `sjoin_nearest` distance columns),
plus the float geometry kernel consumed by `_loc_text`, modelled as
rational-valued oracles in the executable pipeline (its real-valued
embedding is `_haversine_km`/`_bearing_deg` above). -/
structure Geo where
  withinA0 : Pt → A0Feat → Bool
  withinA1 : Pt → A1Feat → Bool
  distA0 : Pt → A0Feat → ℚ
  distA1 : Pt → A1Feat → ℚ
  distCity : Pt → CityFeat → ℚ
  havKm : ℚ → ℚ → ℚ → ℚ → ℚ
  bearDeg : ℚ → ℚ → ℚ → ℚ → ℚ

/-- The loaded reference layers, with flags mirroring the column-presence
tests `"iso_a2" in admin0.columns` (line 328) and
`"iso_a2" in admin1.columns` (line 347). -/
structure Layers where
  admin0 : List A0Feat
  admin1 : List A1Feat
  cities : List CityFeat
  a0IsoPresent : Bool
  a1IsoPresent : Bool

/-- First element attaining the minimal key.  This is
`sort_values([epiid, dist]).drop_duplicates("epiid", keep="first")`
restricted to one epiid group: pandas sorts stably, so among equal
distances the earlier row wins. -/
def stableMinBy {α : Type} (f : α → ℚ) : List α → Option α
  | [] => none
  | x :: xs => some (xs.foldl (fun b y => if f y < f b then y else b) x)

/-- Left spatial join with predicate `"within"`
(`gpd.sjoin(eq, layer, how="left", predicate="within")`, lines 193-202):
one output row per (input row, containing feature) pair, and a single row
with a null right side when no feature contains the point. -/
def sjoinWithin {α : Type} (pts : List Pt) (feats : List α) (within : Pt → α → Bool) :
    List (Pt × Option α) :=
  pts.flatMap (fun p =>
    match feats.filter (fun f => within p f) with
    | [] => [(p, none)]
    | hits => hits.map (fun h => (p, some h)))

/-- A row of the `merged` frame after joining the admin-1 and admin-0
results on `epiid` (line 205). -/
structure MergedRow where
  pt : Pt
  admin1 : Option String
  country : Option String
deriving DecidableEq

/-- Embedding of `j1.merge(j0, on="epiid", how="left")` (line 205): each admin-1 row
pairs with every admin-0 row carrying the same epiid. -/
def mergeJ1J0 (j1 : List (Pt × Option A1Feat)) (j0 : List (String × Option String)) :
    List MergedRow :=
  j1.flatMap (fun pr =>
    match j0.filter (fun q => q.1 == pr.1.epiid) with
    | [] => [⟨pr.1, pr.2.bind A1Feat.admin1, none⟩]
    | ms => ms.map (fun q => ⟨pr.1, pr.2.bind A1Feat.admin1, q.2⟩))

/-- Country of the nearest admin-0 feature in projected space
(`sjoin_nearest` + per-epiid sort/dedup, lines 213-237). -/
def nearestA0Country (geo : Geo) (admin0 : List A0Feat) (p : Pt) : Option String :=
  (stableMinBy (fun f => geo.distA0 p f) admin0).bind A0Feat.country

/-- Admin-1 name of the nearest admin-1 feature (lines 245-267). -/
def nearestA1Name (geo : Geo) (admin1 : List A1Feat) (p : Pt) : Option String :=
  (stableMinBy (fun f => geo.distA1 p f) admin1).bind A1Feat.admin1

/-- The nearest populated place and its projected distance `_citydist_m`
(lines 290-298). -/
def nearestCityHit (geo : Geo) (cities : List CityFeat) (p : Pt) : Option (CityFeat × ℚ) :=
  (stableMinBy (fun c => geo.distCity p c) cities).map (fun c => (c, geo.distCity p c))

/-- The Israel-specific admin-1 renaming table of `_normalize_admin1`
(lines 277-284); `mapping.get(s, s)` keeps unmapped names. -/
def israelAdmin1Rename : List (String × String) :=
  [("Northern", "HaZafon"), ("Southern", "HaDarom"), ("Central", "HaMerkaz"),
   ("Jerusalem", "Yerushalayim"), ("Haifa", "Haifa"), ("Tel Aviv", "Tel Aviv")]

/-- Embedding of `_normalize_admin1` (lines 270-288): missing admin-1 passes through;
for rows whose country is Israel the fixed renaming applies; any other
country keeps the name unchanged. -/
def _normalize_admin1 (ctry a1 : Option String) : Option String :=
  match a1 with
  | none => none
  | some s =>
    if ctry = some "Israel" then
      some (match israelAdmin1Rename.lookup s with
        | some t => t
        | none => s)
    else some s

/-- Embedding of `code_to_country` (lines 328-331): iso code to country name built from
the admin-0 layer when the iso column is present; `drop_duplicates`
keep-first + `to_dict` make the first binding per code win, which is the
lookup discipline of an association list. -/
def codeToCountryOf (L : Layers) : List (String × Option String) :=
  if L.a0IsoPresent then
    L.admin0.filterMap (fun f => f.iso.map (fun i => (i, f.country)))
  else []

/-- One candidate row of the post-reconciliation admin-1 re-lookup
(line 357): the nearest-feature admin-1 name, its `iso_a2`, and the
`_a1fix_m` distance. -/
structure A1FixCand where
  admin1 : Option String
  iso : Option String
  distM : ℚ
deriving DecidableEq

/-- The admin-1 re-lookup selection after country reconciliation
(lines 356-370).  The source computes an `ok` flag per candidate comparing
its `iso_a2` with the desired `nearest_city_iso_a2` (line 363) but appends
the row unchanged either way (`rows.append(r if ok else r)`) and never
reads the accumulated list, so the selection — global sort by `_a1fix_m`,
keep the first row per epiid — is unconstrained by `desired`. -/
def admin1FixPick (_desired : Option String) (cands : List A1FixCand) : Option String :=
  (stableMinBy A1FixCand.distM cands).bind A1FixCand.admin1

/-- An output row of `enrich_geocoding` (columns kept at lines 412-417). -/
structure ERow where
  epiid : String
  latitude : ℚ
  longitude : ℚ
  admin1 : Option String
  admin2 : Option String
  country : Option String
  nearest_city : Option String
  location_text : Option String
  offshore : Bool
deriving DecidableEq

/-- Embedding of `_loc_text` (lines 375-408) for one row: null when there is no nearest
city (the city merge also supplies the coordinates, so a missing hit makes
both guards at lines 383 and 387 fire); otherwise the distance and bearing
from the point to the stored city coordinates feed the formatting tail
`locTextCore`. -/
def locTextRow (geo : Geo) (p : Pt) (cityHit : Option (CityFeat × ℚ))
    (a1 ctry : Option String) (offshore : Bool) : Option String :=
  match cityHit with
  | none => none
  | some (c, _) =>
    locTextCore (geo.havKm p.latitude p.longitude c.lat c.lon)
      (geo.bearDeg p.latitude p.longitude c.lat c.lon) c.name a1 ctry offshore

/-- Per-row enrichment after the two containment joins (lines 207-410):
offshore flag plus nearest-country fill for rows without a containing
country, nearest-admin-1 fill for rows without a containing admin-1, the
Israel admin-1 normalization, the nearest-city join, country
reconciliation, the (unconstrained) admin-1 re-lookup, and the location
text. -/
def processRow (geo : Geo) (L : Layers) (r : MergedRow) : ERow :=
  let offshore := r.country = none
  let country1 := if r.country = none then nearestA0Country geo L.admin0 r.pt else r.country
  let admin1a := if r.admin1 = none then nearestA1Name geo L.admin1 r.pt else r.admin1
  let admin1b := _normalize_admin1 country1 admin1a
  let cityHit := nearestCityHit geo L.cities r.pt
  let cityIso := cityHit.bind (fun ch => ch.1.iso)
  let country2 := _reconcile_country (codeToCountryOf L) country1 cityIso (cityHit.map Prod.snd)
  let admin1c :=
    if L.a1IsoPresent ∧ admin1b = none then
      admin1FixPick cityIso (L.admin1.map (fun f => ⟨f.admin1, f.iso, geo.distA1 r.pt f⟩))
    else admin1b
  { epiid := r.pt.epiid
    latitude := r.pt.latitude
    longitude := r.pt.longitude
    admin1 := admin1c
    admin2 := none
    country := country2
    nearest_city := cityHit.map (fun ch => ch.1.name)
    location_text := locTextRow geo r.pt cityHit admin1c country2 offshore
    offshore := offshore }

/-- Embedding of `enrich_geocoding` (lines 173-418) over already-loaded layers: empty
input is returned unchanged (line 179); otherwise the admin-1 and admin-0
containment joins are merged on epiid and every merged row is enriched. -/
def enrich_geocoding (geo : Geo) (L : Layers) (pts : List Pt) : List ERow :=
  if pts.isEmpty then [] else
  (mergeJ1J0 (sjoinWithin pts L.admin1 geo.withinA1)
    ((sjoinWithin pts L.admin0 geo.withinA0).map
      (fun pr => (pr.1.epiid, pr.2.bind A0Feat.country)))).map (processRow geo L)

/-- Embedding of `enrich_geocoding` including its layer-loading phase (lines 179-189):
the empty-input early return happens before any loading; otherwise
`_load_admin0`, `_load_admin1` and `_load_cities` run in that order, and a
missing file makes `_safe_read_shp` (lines 47-58) or `_load_cities`
(lines 108-110) raise `FileNotFoundError`, which nothing in
`enrich_geocoding` catches.  A layer argument is `none` when its file is
absent on disk. -/
def enrichGeocodingWithLoad (geo : Geo)
    (admin0File : Option (List A0Feat)) (admin1File : Option (List A1Feat))
    (citiesFile : Option (List CityFeat)) (a0Iso a1Iso : Bool) (pts : List Pt) :
    Except String (List ERow) :=
  if pts.isEmpty then Except.ok [] else
  match admin0File with
  | none => Except.error "FileNotFoundError: ne_10m_admin_0_countries.shp"
  | some a0 =>
    match admin1File with
    | none => Except.error "FileNotFoundError: ne_10m_admin_1_states_provinces.shp"
    | some a1 =>
      match citiesFile with
      | none => Except.error "FileNotFoundError: cities1000.txt"
      | some cs => Except.ok (enrich_geocoding geo ⟨a0, a1, cs, a0Iso, a1Iso⟩ pts)

/-- Derivation of `on_land` in `enrich_and_format` (pipeline_utils.py lines
202-213): `offshore.map({True: False, False: True})`; the subsequent
`fillna` never fires because the `offshore` column produced by
`enrich_geocoding` is a non-null boolean (lines 209-211). -/
def on_land_of (offshore : Bool) : Bool := !offshore

/-- A geometry oracle whose containment tests always succeed and whose
distances are all zero, for concrete evaluations. -/
def allTrueGeo : Geo :=
  ⟨fun _ _ => true, fun _ _ => true, fun _ _ => 0, fun _ _ => 0, fun _ _ => 0,
   fun _ _ _ _ => 0, fun _ _ _ _ => 0⟩

/-- A geometry oracle whose containment tests always fail (an offshore
point), with all distances zero. -/
def noWithinGeo : Geo :=
  ⟨fun _ _ => false, fun _ _ => false, fun _ _ => 0, fun _ _ => 0, fun _ _ => 0,
   fun _ _ _ _ => 0, fun _ _ _ _ => 0⟩

/-- A concrete input point. -/
def ptE1 : Pt := ⟨"e1", 32, 35⟩

/-- C3. Code-bug evidence: with the desired country code "IL", a nearer
admin-1 candidate tagged "JO" and a farther one tagged "IL" in the same
re-lookup, the selection returns the globally nearest feature ("Irbid",
JO) and not the country-matching one ("HaZafon", IL) — the iso filter in
the source is dead code (`rows.append(r if ok else r)` appends the row
unchanged and `rows` is never read). -/
theorem admin1_fix_ignores_country_constraint :
    admin1FixPick (some "IL")
        [⟨some "Irbid", some "JO", 1000⟩, ⟨some "HaZafon", some "IL", 5000⟩] =
      some "Irbid" ∧
    ¬(admin1FixPick (some "IL")
        [⟨some "Irbid", some "JO", 1000⟩, ⟨some "HaZafon", some "IL", 5000⟩] =
      some "HaZafon") := by
  refine ⟨by decide, by decide⟩

/-- C5 counterexample.  With a nonempty batch and the admin-1 shapefile
missing, `enrich_geocoding` propagates `FileNotFoundError` instead of
degrading admin-region fields to null: the run aborts and produces no
per-point results. -/
theorem missing_layer_counterexample :
    enrichGeocodingWithLoad allTrueGeo (some [⟨some "A", none⟩]) none (some [])
        false false [ptE1] =
      Except.error "FileNotFoundError: ne_10m_admin_1_states_provinces.shp" ∧
    (enrichGeocodingWithLoad allTrueGeo (some [⟨some "A", none⟩]) none (some [])
        false false [ptE1]).isOk = false := by
  refine ⟨rfl, rfl⟩

/-- C5 (amended).  Missing-reference-layer behaviour: for every nonempty
batch, a missing reference-layer file — the country polygons, the
admin-region polygons, or the populated-place file — makes the enrichment
run raise `FileNotFoundError` (from `_safe_read_shp` or `_load_cities`)
and abort without producing any per-point result; no field-level
degradation occurs. -/
theorem missing_layer_raises (geo : Geo) (a0 : Option (List A0Feat))
    (a1 : Option (List A1Feat)) (cs : Option (List CityFeat)) (aI bI : Bool)
    (pts : List Pt) (hne : pts ≠ [])
    (hmiss : a0 = none ∨ a1 = none ∨ cs = none) :
    ∃ msg, enrichGeocodingWithLoad geo a0 a1 cs aI bI pts = Except.error msg := by
  cases pts with
  | nil => exact absurd rfl hne
  | cons p l =>
    cases a0 with
    | none => exact ⟨"FileNotFoundError: ne_10m_admin_0_countries.shp", rfl⟩
    | some x0 =>
      cases a1 with
      | none => exact ⟨"FileNotFoundError: ne_10m_admin_1_states_provinces.shp", rfl⟩
      | some x1 =>
        cases cs with
        | none => exact ⟨"FileNotFoundError: cities1000.txt", rfl⟩
        | some x2 =>
          rcases hmiss with h | h | h <;> exact Option.noConfusion h

/-- Closed witness for `missing_layer_raises`: a missing country-polygons
file alone aborts a nonempty batch. -/
theorem missing_layer_raises_witness :
    ∃ msg, enrichGeocodingWithLoad allTrueGeo none (some []) (some [])
      false false [ptE1] = Except.error msg :=
  missing_layer_raises allTrueGeo none (some []) (some []) false false [ptE1]
    (by decide) (Or.inl rfl)

/-- C6 counterexample.  A single input point lying within two admin-1
polygons and two admin-0 polygons produces four output rows (the epiid
merge forms the product of the per-layer containment matches, and nothing
deduplicates the merged frame), so the output is not aligned 1:1 with the
input. -/
theorem enrich_alignment_counterexample :
    (enrich_geocoding allTrueGeo
        ⟨[⟨some "A", none⟩, ⟨some "B", none⟩], [⟨some "X", none⟩, ⟨some "Y", none⟩],
         [], false, false⟩ [ptE1]).length ≠ ([ptE1] : List Pt).length := by
  decide

/-- When every point is contained in at most one feature, the "within" join
contributes exactly one row per point, carrying the first (only) hit. -/
theorem sjoinWithin_single {α : Type} (pts : List Pt) (feats : List α)
    (within : Pt → α → Bool)
    (h : ∀ p ∈ pts, (feats.filter (fun f => within p f)).length ≤ 1) :
    sjoinWithin pts feats within =
      pts.map (fun p => (p, (feats.filter (fun f => within p f)).head?)) := by
  induction pts with
  | nil => rfl
  | cons p rest ih =>
    have hrest : ∀ q ∈ rest, (feats.filter (fun f => within q f)).length ≤ 1 :=
      fun q hq => h q (List.mem_cons_of_mem _ hq)
    have hp := h p (List.mem_cons_self _ _)
    have hstep : sjoinWithin (p :: rest) feats within =
        (match feats.filter (fun f => within p f) with
         | [] => [(p, none)]
         | hits => hits.map (fun h2 => (p, some h2))) ++ sjoinWithin rest feats within := by
      simp [sjoinWithin, List.flatMap_cons]
    rw [hstep, ih hrest, List.map_cons]
    cases hf : feats.filter (fun f => within p f) with
    | nil => rfl
    | cons a tail =>
      cases tail with
      | nil => rfl
      | cons b t2 =>
        rw [hf] at hp
        simp at hp

/-- With pairwise-distinct epiids, filtering the admin-0 join rows of a
batch for the epiid of one point returns exactly the row of that point. -/
theorem filter_epiid_single (pts : List Pt) (c0 : Pt → Option String)
    (hnd : (pts.map Pt.epiid).Nodup) (p : Pt) (hp : p ∈ pts) :
    (pts.map (fun q => (q.epiid, c0 q))).filter (fun q => q.1 == p.epiid) =
      [(p.epiid, c0 p)] := by
  induction pts with
  | nil => cases hp
  | cons q rest ih =>
    rw [List.map_cons, List.filter_cons]
    rcases List.mem_cons.mp hp with rfl | hmem
    · have hnotin : p.epiid ∉ rest.map Pt.epiid := (List.nodup_cons.mp hnd).1
      have hrest : (rest.map (fun q2 => (q2.epiid, c0 q2))).filter
          (fun r => r.1 == p.epiid) = [] := by
        rw [List.filter_eq_nil_iff]
        intro a ha
        obtain ⟨q2, hq2, rfl⟩ := List.mem_map.mp ha
        simp only [beq_iff_eq]
        intro heq
        exact hnotin (heq ▸ List.mem_map_of_mem Pt.epiid hq2)
      simp [hrest]
    · have h1 : q.epiid ∉ rest.map Pt.epiid := (List.nodup_cons.mp hnd).1
      have h2 : p.epiid ∈ rest.map Pt.epiid := List.mem_map_of_mem Pt.epiid hmem
      have hne : ((q.epiid, c0 q).1 == p.epiid) = false := by
        refine beq_eq_false_iff_ne.mpr ?_
        intro hh
        have hh2 : q.epiid = p.epiid := hh
        refine h1 ?_
        rw [hh2]
        exact h2
      rw [hne]
      simp only [Bool.false_eq_true, if_false]
      exact ih (List.nodup_cons.mp hnd).2 hmem

/-- Merging one admin-1 row per point against an admin-0 frame holding
exactly one matching row per epiid yields exactly one merged row per
point, in input order. -/
theorem mergeJ1J0_rows (j0 : List (String × Option String)) (l : List Pt)
    (f1 : Pt → Option A1Feat) (c0 : Pt → Option String)
    (hf : ∀ p ∈ l, j0.filter (fun q => q.1 == p.epiid) = [(p.epiid, c0 p)]) :
    mergeJ1J0 (l.map (fun p => (p, f1 p))) j0 =
      l.map (fun p => ⟨p, (f1 p).bind A1Feat.admin1, c0 p⟩) := by
  induction l with
  | nil => rfl
  | cons p rest ih =>
    have hstep : mergeJ1J0 ((p, f1 p) :: rest.map (fun q => (q, f1 q))) j0 =
        (match j0.filter (fun q => q.1 == p.epiid) with
         | [] => [⟨p, (f1 p).bind A1Feat.admin1, none⟩]
         | ms => ms.map (fun q => ⟨p, (f1 p).bind A1Feat.admin1, q.2⟩)) ++
          mergeJ1J0 (rest.map (fun q => (q, f1 q))) j0 := by
      simp [mergeJ1J0, List.flatMap_cons]
    rw [List.map_cons, hstep, hf p (List.mem_cons_self _ _),
      ih (fun q hq => hf q (List.mem_cons_of_mem _ hq)), List.map_cons]
    rfl

/-- C6 (amended).  Output alignment: for inputs with pairwise-distinct
epiids in which every point lies within at most one admin-1 polygon and at
most one admin-0 polygon, `enrich_geocoding` returns exactly one row per
input record, in input order, with the same epiids.  (The counterexample
shows the 1:1 alignment fails when a point lies within overlapping
polygons of a reference layer.) -/
theorem enrich_alignment (geo : Geo) (L : Layers) (pts : List Pt)
    (hnd : (pts.map Pt.epiid).Nodup)
    (h1 : ∀ p ∈ pts, (L.admin1.filter (fun f => geo.withinA1 p f)).length ≤ 1)
    (h0 : ∀ p ∈ pts, (L.admin0.filter (fun f => geo.withinA0 p f)).length ≤ 1) :
    (enrich_geocoding geo L pts).map ERow.epiid = pts.map Pt.epiid := by
  cases pts with
  | nil => rfl
  | cons p0 rest =>
    have e1 := sjoinWithin_single (p0 :: rest) L.admin1 geo.withinA1 h1
    have e0 := sjoinWithin_single (p0 :: rest) L.admin0 geo.withinA0 h0
    have e0' : (sjoinWithin (p0 :: rest) L.admin0 geo.withinA0).map
        (fun pr => (pr.1.epiid, pr.2.bind A0Feat.country)) =
        (p0 :: rest).map (fun p => (p.epiid,
          ((L.admin0.filter (fun f => geo.withinA0 p f)).head?).bind A0Feat.country)) := by
      rw [e0, List.map_map]
      rfl
    have hf : ∀ p ∈ (p0 :: rest),
        ((p0 :: rest).map (fun q => (q.epiid,
          ((L.admin0.filter (fun f => geo.withinA0 q f)).head?).bind A0Feat.country))).filter
            (fun q => q.1 == p.epiid) =
        [(p.epiid, ((L.admin0.filter (fun f => geo.withinA0 p f)).head?).bind A0Feat.country)] :=
      fun p hp => filter_epiid_single (p0 :: rest) _ hnd p hp
    have hm := mergeJ1J0_rows
      ((p0 :: rest).map (fun q => (q.epiid,
        ((L.admin0.filter (fun f => geo.withinA0 q f)).head?).bind A0Feat.country)))
      (p0 :: rest)
      (fun p => (L.admin1.filter (fun f => geo.withinA1 p f)).head?)
      (fun p => ((L.admin0.filter (fun f => geo.withinA0 p f)).head?).bind A0Feat.country)
      hf
    unfold enrich_geocoding
    simp only [List.isEmpty_cons, Bool.false_eq_true, if_false]
    rw [e1, e0', hm, List.map_map, List.map_map]
    rfl

/-- The running minimum of a fold is the accumulator or one of the folded
elements. -/
theorem foldl_min_mem {α : Type} (f : α → ℚ) (xs : List α) (acc : α) :
    xs.foldl (fun b y => if f y < f b then y else b) acc = acc ∨
      xs.foldl (fun b y => if f y < f b then y else b) acc ∈ xs := by
  induction xs generalizing acc with
  | nil => exact Or.inl rfl
  | cons y ys ih =>
    rw [List.foldl_cons]
    rcases ih (if f y < f acc then y else acc) with h | h
    · rw [h]
      by_cases hc : f y < f acc
      · rw [if_pos hc]
        exact Or.inr (List.mem_cons_self _ _)
      · rw [if_neg hc]
        exact Or.inl rfl
    · exact Or.inr (List.mem_cons_of_mem _ h)

/-- A stable minimum, when it exists, is an element of the list. -/
theorem stableMinBy_mem {α : Type} (f : α → ℚ) (l : List α) (x : α)
    (h : stableMinBy f l = some x) : x ∈ l := by
  cases l with
  | nil => exact Option.noConfusion h
  | cons a xs =>
    simp only [stableMinBy, Option.some.injEq] at h
    subst h
    rcases foldl_min_mem f xs a with h | h
    · rw [h]
      exact List.mem_cons_self _ _
    · exact List.mem_cons_of_mem _ h

/-- Country reconciliation never erases a present country when every value
of the code table is present: the result is the unchanged country or a
table value. -/
theorem reconcile_preserves_isSome (m : List (String × Option String))
    (ctry cityIso : Option String) (distM : Option ℚ)
    (hvals : ∀ kv ∈ m, (Prod.snd kv).isSome = true)
    (hc : ctry.isSome = true) :
    (_reconcile_country m ctry cityIso distM).isSome = true := by
  cases cityIso with
  | none => exact hc
  | some iso =>
    cases distM with
    | none => exact hc
    | some d =>
      simp only [_reconcile_country]
      split
      · cases hl : m.lookup iso with
        | none => exact hc
        | some v => exact hvals (iso, v) (lookup_mem_of_eq_some m iso v hl)
      · exact hc

/-- Every row of a "within" join stems from one of the joined points. -/
theorem sjoinWithin_fst {α : Type} (pts : List Pt) (feats : List α)
    (within : Pt → α → Bool) (pr : Pt × Option α)
    (h : pr ∈ sjoinWithin pts feats within) : pr.1 ∈ pts := by
  unfold sjoinWithin at h
  obtain ⟨p, hp, hmem⟩ := List.mem_flatMap.mp h
  cases hf : feats.filter (fun f => within p f) with
  | nil =>
    rw [hf] at hmem
    have : pr = (p, none) := List.mem_singleton.mp hmem
    rw [this]
    exact hp
  | cons a tail =>
    rw [hf] at hmem
    obtain ⟨x, hx, rfl⟩ := List.mem_map.mp hmem
    exact hp

/-- Every merged row stems from an admin-1 join row, and its country is
null or one of the admin-0 join values. -/
theorem mergeJ1J0_mem (j1 : List (Pt × Option A1Feat))
    (j0 : List (String × Option String)) (m : MergedRow) (h : m ∈ mergeJ1J0 j1 j0) :
    (∃ pr ∈ j1, m.pt = pr.1) ∧ (m.country = none ∨ ∃ q ∈ j0, m.country = q.2) := by
  unfold mergeJ1J0 at h
  obtain ⟨pr, hpr, hmem⟩ := List.mem_flatMap.mp h
  cases hf : j0.filter (fun q => q.1 == pr.1.epiid) with
  | nil =>
    rw [hf] at hmem
    have : m = ⟨pr.1, pr.2.bind A1Feat.admin1, none⟩ := List.mem_singleton.mp hmem
    rw [this]
    exact ⟨⟨pr, hpr, rfl⟩, Or.inl rfl⟩
  | cons a tail =>
    rw [hf] at hmem
    obtain ⟨q, hq, rfl⟩ := List.mem_map.mp hmem
    rw [← hf] at hq
    exact ⟨⟨pr, hpr, rfl⟩, Or.inr ⟨q, List.mem_of_mem_filter hq, rfl⟩⟩

/-- C2. Offshore classification: for a point contained in no country
polygon (with a nonempty country layer whose features carry names), every
output row of `enrich_geocoding` is marked offshore, its derived `on_land`
is false, the nearest-country lookup yields a name, the finalized country
is never null, and — whenever no nearest populated place exists to trigger
reconciliation — the country is exactly the nearest country polygon
name. -/
theorem offshore_classification (geo : Geo) (L : Layers) (p : Pt)
    (hnc : ∀ f ∈ L.admin0, geo.withinA0 p f = false)
    (hne : L.admin0 ≠ [])
    (hnames : ∀ f ∈ L.admin0, (A0Feat.country f).isSome = true) :
    ∀ r ∈ enrich_geocoding geo L [p],
      r.offshore = true ∧
      on_land_of r.offshore = false ∧
      (nearestA0Country geo L.admin0 p).isSome = true ∧
      r.country.isSome = true ∧
      (r.nearest_city = none → r.country = nearestA0Country geo L.admin0 p) := by
  intro r hr
  have hfil : L.admin0.filter (fun f => geo.withinA0 p f) = [] :=
    List.filter_eq_nil_iff.mpr (fun f hf => by simp [hnc f hf])
  have hj0 : (sjoinWithin [p] L.admin0 geo.withinA0).map
      (fun pr => (pr.1.epiid, pr.2.bind A0Feat.country)) = [(p.epiid, none)] := by
    simp [sjoinWithin, hfil]
  rw [show enrich_geocoding geo L [p] =
      (mergeJ1J0 (sjoinWithin [p] L.admin1 geo.withinA1)
        ((sjoinWithin [p] L.admin0 geo.withinA0).map
          (fun pr => (pr.1.epiid, pr.2.bind A0Feat.country)))).map (processRow geo L)
      from rfl, hj0] at hr
  obtain ⟨m, hm, rfl⟩ := List.mem_map.mp hr
  obtain ⟨⟨pr, hpr, hmpt⟩, hcountry⟩ := mergeJ1J0_mem _ _ m hm
  have hppt : m.pt = p := by
    have h1 := sjoinWithin_fst [p] L.admin1 geo.withinA1 pr hpr
    have h2 : pr.1 = p := List.mem_singleton.mp h1
    rw [hmpt, h2]
  have hcn : m.country = none := by
    rcases hcountry with h | ⟨q, hq, hqc⟩
    · exact h
    · have hq2 : q = (p.epiid, none) := List.mem_singleton.mp hq
      rw [hqc, hq2]
  have hns : (nearestA0Country geo L.admin0 p).isSome = true := by
    unfold nearestA0Country
    cases hsb : stableMinBy (fun f => geo.distA0 p f) L.admin0 with
    | none =>
      cases hL : L.admin0 with
      | nil => exact absurd hL hne
      | cons a xs =>
        rw [hL] at hsb
        simp [stableMinBy] at hsb
    | some g =>
      have hgmem : g ∈ L.admin0 := stableMinBy_mem _ _ _ hsb
      exact hnames g hgmem
  have hvals : ∀ kv ∈ codeToCountryOf L, (Prod.snd kv).isSome = true := by
    intro kv hkv
    unfold codeToCountryOf at hkv
    split at hkv
    · obtain ⟨f, hf, hfe⟩ := List.mem_filterMap.mp hkv
      cases hiso : f.iso with
      | none =>
        rw [hiso] at hfe
        exact Option.noConfusion hfe
      | some i =>
        rw [hiso] at hfe
        have : (i, f.country) = kv := Option.some.inj hfe
        rw [← this]
        exact hnames f hf
    · cases hkv
  have hc1 : (if m.country = none then nearestA0Country geo L.admin0 m.pt else m.country) =
      nearestA0Country geo L.admin0 p := by
    rw [if_pos hcn, hppt]
  refine ⟨?_, ?_, hns, ?_, ?_⟩
  · simp [processRow, hcn]
  · simp [processRow, on_land_of, hcn]
  · simp only [processRow]
    rw [hc1]
    exact reconcile_preserves_isSome _ _ _ _ hvals hns
  · intro hnocity
    simp only [processRow] at hnocity ⊢
    have hch : nearestCityHit geo L.cities m.pt = none := by
      cases hch2 : nearestCityHit geo L.cities m.pt with
      | none => rfl
      | some ch =>
        rw [hch2] at hnocity
        exact Option.noConfusion hnocity
    rw [hch, hc1]
    rfl

/-- A one-country reference set for the offshore witness. -/
def xlandLayers : Layers := ⟨[⟨some "Xland", some "XX"⟩], [], [], false, false⟩

/-- The enrichment row produced for `ptE1` against `xlandLayers` when no
containment succeeds. -/
def xlandRow : ERow := ⟨"e1", 32, 35, none, none, some "Xland", none, none, true⟩

/-- Closed witness for `offshore_classification`: a point contained in no
country polygon is marked offshore with `on_land` false, and its country
is the name of the nearest country. -/
theorem offshore_classification_witness :
    xlandRow.offshore = true ∧
    on_land_of xlandRow.offshore = false ∧
    (nearestA0Country noWithinGeo xlandLayers.admin0 ptE1).isSome = true ∧
    xlandRow.country.isSome = true ∧
    (xlandRow.nearest_city = none →
      xlandRow.country = nearestA0Country noWithinGeo xlandLayers.admin0 ptE1) :=
  offshore_classification noWithinGeo xlandLayers ptE1 (by decide) (by decide) (by decide)
    xlandRow (by decide)

/-- Closed witness for `enrich_alignment`: a singleton batch with no
overlapping containment is returned 1:1. -/
theorem enrich_alignment_witness :
    (enrich_geocoding noWithinGeo xlandLayers [ptE1]).map ERow.epiid =
      ([ptE1] : List Pt).map Pt.epiid :=
  enrich_alignment noWithinGeo xlandLayers [ptE1] (by decide) (by decide) (by decide)

/- ------------------------------------------------------------------ -/
/- Raw-CSV cleaning (`clean_eq_df`, pipeline_utils.py lines 104-159)   -/
/- ------------------------------------------------------------------ -/

/-- A cell value of the tabular model: string, numeric, boolean, or
missing (pandas NaN/NaT/pd.NA are all modelled as `vna`). -/
inductive Val where
  | vstr (s : String)
  | vnum (q : ℚ)
  | vbool (b : Bool)
  | vna
deriving DecidableEq

/-- Cell access by column name; a name absent from the row reads as
missing. -/
def cellv (r : List (String × Val)) (c : String) : Val :=
  (r.lookup c).getD Val.vna

/-- Column assignment within a row: replace the first binding of the
column, or append one. -/
def setCell (c : String) (v : Val) : List (String × Val) → List (String × Val)
  | [] => [(c, v)]
  | kv :: rest => if kv.1 = c then (c, v) :: rest else kv :: setCell c v rest

/-- A data frame: ordered column names plus rows of cells. -/
structure DFrame where
  cols : List String
  rows : List (List (String × Val))
deriving DecidableEq

/-- Embedding of `df.drop(columns=["Region"])` guarded by presence (lines 113-114). -/
def dropColIfPresent (c : String) (df : DFrame) : DFrame :=
  if c ∈ df.cols then ⟨df.cols.erase c, df.rows⟩ else df

/-- The raw-GSI rename map (lines 117-125). -/
def renameGsi (c : String) : String :=
  match c with
  | "DateTime" => "date-time"
  | "Mag" => "magnitude"
  | "Lat" => "latitude"
  | "Long" => "longitude"
  | "Depth(Km)" => "depth"
  | "Type" => "felt?"
  | other => other

/-- Embedding of `df.rename(columns=rename_map)`. -/
def renameDF (df : DFrame) : DFrame :=
  ⟨df.cols.map renameGsi, df.rows.map (fun r => r.map (fun kv => (renameGsi kv.1, kv.2)))⟩

/-- The frame after the Region drop and the rename (lines 113-125). -/
def afterRename (df : DFrame) : DFrame := renameDF (dropColIfPresent "Region" df)

/-- Embedding of `df[c] = df[c].map(f)`-style whole-column transform, guarded by the
per-column presence checks of the source. -/
def transformCol (c : String) (f : Val → Val) (df : DFrame) : DFrame :=
  if c ∈ df.cols then ⟨df.cols, df.rows.map (fun r => setCell c (f (cellv r c)) r)⟩ else df

/-- Python `str(value)` as applied by `.astype(str)`: missing cells render
as the string "nan".  (The exact numeral rendering is immaterial to every
property proved below.) -/
def pyStr : Val → String
  | .vstr s => s
  | .vnum q => toString q
  | .vbool b => if b then "True" else "False"
  | .vna => "nan"

/-- Embedding of `.str.strip("\x27")`: strip leading/trailing apostrophes. -/
def stripQuoteChars (s : String) : String :=
  String.mk (((s.toList.dropWhile (fun ch => ch = '\x27')).reverse.dropWhile
    (fun ch => ch = '\x27')).reverse)

/-- epiid cleaning (line 129): `astype(str).str.strip("\x27").str.strip()`. -/
def epiidClean (v : Val) : Val := .vstr (pyStrip (stripQuoteChars (pyStr v)))

/-- felt? cleaning (line 133): `astype(str).str.strip().map({"EQ": False,
"F": True})`; unmapped values become missing. -/
def feltClean (v : Val) : Val :=
  match pyStrip (pyStr v) with
  | "EQ" => .vbool false
  | "F" => .vbool true
  | _ => .vna

/-- Embedding of `.str.replace("T", " ", regex=False)` (line 137), a single-character
substitution. -/
def replaceTwithSpace (s : String) : String :=
  String.mk (s.toList.map (fun ch => if ch = 'T' then ' ' else ch))

/-- Digits-only natural parser. -/
def parseNatDigits (s : String) : Option Nat :=
  if s.length > 0 ∧ s.toList.all Char.isDigit then
    some (s.toList.foldl (fun a ch => a * 10 + (ch.toNat - 48)) 0)
  else none

/-- Split of a character list at a separator character. -/
def splitCharAux (ch : Char) : List Char → List (List Char)
  | [] => [[]]
  | c :: rest =>
    let r := splitCharAux ch rest
    if c = ch then [] :: r
    else
      match r with
      | [] => [[c]]
      | g :: gs => (c :: g) :: gs

/-- Split of a string at a separator character (`str.split(sep)` for a
one-character separator). -/
def splitOnChar (ch : Char) (s : String) : List String :=
  (splitCharAux ch s.toList).map String.mk

/-- Parse "YYYY-MM-DD" with range checks. -/
def parseDatePart (s : String) : Option (Nat × Nat × Nat) :=
  match splitOnChar '-' s with
  | [y, m, d] =>
    match parseNatDigits y, parseNatDigits m, parseNatDigits d with
    | some yn, some mn, some dn =>
      if 1 ≤ mn ∧ mn ≤ 12 ∧ 1 ≤ dn ∧ dn ≤ 31 then some (yn, mn, dn) else none
    | _, _, _ => none
  | _ => none

/-- Parse "HH:MM:SS" with range checks. -/
def parseTimePart (s : String) : Option (Nat × Nat × Nat) :=
  match splitOnChar ':' s with
  | [h, mi, se] =>
    match parseNatDigits h, parseNatDigits mi, parseNatDigits se with
    | some hn, some mn, some sn =>
      if hn ≤ 23 ∧ mn ≤ 59 ∧ sn ≤ 59 then some (hn, mn, sn) else none
    | _, _, _ => none
  | _ => none

/-- Two-digit zero padding for `strftime`. -/
def pad2 (n : Nat) : String := if n < 10 then "0" ++ toString n else toString n

/-- Embedding of `pd.to_datetime(errors="coerce")` followed by
`strftime("%d/%m/%Y %H:%M:%S")` (lines 138-139), modelled for the ISO
"YYYY-MM-DD[ HH:MM:SS]" shapes the GSI feed delivers; anything else
coerces to NaT and formats as missing. -/
def toDatetimeStrftime (s : String) : Val :=
  match splitOnChar ' ' s with
  | [d] =>
    match parseDatePart d with
    | some (y, m, dd) => .vstr (pad2 dd ++ "/" ++ pad2 m ++ "/" ++ toString y ++ " 00:00:00")
    | none => .vna
  | [d, t] =>
    match parseDatePart d, parseTimePart t with
    | some (y, m, dd), some (h, mi, se) =>
      .vstr (pad2 dd ++ "/" ++ pad2 m ++ "/" ++ toString y ++ " " ++
        pad2 h ++ ":" ++ pad2 mi ++ ":" ++ pad2 se)
    | _, _ => .vna
  | _ => .vna

/-- date-time cleaning (lines 136-139). -/
def datetimeClean (v : Val) : Val := toDatetimeStrftime (replaceTwithSpace (pyStr v))

/-- Embedding of `df["date-time"].str.split(" ").str[0]` (line 143): first space-separated
component for strings, missing for anything else (the `.str` accessor
yields NaN on non-strings). -/
def dateOfDatetime (v : Val) : Val :=
  match v with
  | .vstr s =>
    match splitOnChar ' ' s with
    | [] => .vna
    | p :: _ => .vstr p
  | _ => .vna

/-- Embedding of `df[c] = df[src].<derived>`: adds the column when absent. -/
def setColDerived (c : String) (f : Val → Val) (src : String) (df : DFrame) : DFrame :=
  ⟨if c ∈ df.cols then df.cols else df.cols ++ [c],
   df.rows.map (fun r => setCell c (f (cellv r src)) r)⟩

/-- Decimal-literal parser backing `pd.to_numeric(errors="coerce")`:
optional sign, digits, optional fractional part. -/
def parseRatStr (s : String) : Option ℚ :=
  let signBody : ℤ × List Char :=
    match s.toList with
    | '-' :: rest => (-1, rest)
    | '+' :: rest => (1, rest)
    | l => (1, l)
  match splitCharAux '.' signBody.2 with
  | [ip] =>
    match parseNatDigits (String.mk ip) with
    | some n => some (mkRat (signBody.1 * n) 1)
    | none => none
  | [ip, fp] =>
    if ip.isEmpty ∧ fp.isEmpty then none
    else
      match (if ip.isEmpty then some 0 else parseNatDigits (String.mk ip)),
            (if fp.isEmpty then some 0 else parseNatDigits (String.mk fp)) with
      | some n, some fr =>
        some (mkRat (signBody.1 * (n * 10 ^ fp.length + fr)) (10 ^ fp.length))
      | _, _ => none
  | _ => none

/-- Embedding of `pd.to_numeric(errors="coerce")` (lines 146-148): numerics pass,
booleans become 0/1, parseable strings convert, everything else coerces to
missing. -/
def toNumericCoerce (v : Val) : Val :=
  match v with
  | .vnum q => .vnum q
  | .vstr s =>
    match parseRatStr (pyStrip s) with
    | some q => .vnum q
    | none => .vna
  | .vbool b => .vnum (if b then 1 else 0)
  | .vna => .vna

/-- Embedding of `dropna(subset=...)` (line 154): raises `KeyError` when a subset column
is absent; otherwise keeps the rows whose subset cells are all present. -/
def dropnaSubset (sub : List String) (df : DFrame) : Except String DFrame :=
  if sub.all (fun c => df.cols.contains c) then
    Except.ok ⟨df.cols, df.rows.filter (fun r => sub.all (fun c => !(cellv r c == Val.vna)))⟩
  else Except.error "KeyError"

/-- Embedding of `out[c] = pd.NA` for an absent essential column (lines 156-158). -/
def addNAColIfAbsent (c : String) (df : DFrame) : DFrame :=
  if c ∈ df.cols then df else ⟨df.cols ++ [c], df.rows.map (setCell c .vna)⟩

/-- Column selection/reordering `df[ks]` (the callers only select present
columns). -/
def selectCols (ks : List String) (df : DFrame) : DFrame := ⟨ks, df.rows⟩

/-- Embedding of `ESSENTIAL_COLS` (pipeline_utils.py lines 32-35). -/
def ESSENTIAL_COLS : List String :=
  ["epiid", "latitude", "longitude", "date", "date-time", "magnitude", "depth", "felt?"]

/-- The date-column derivation step (lines 142-143), guarded on the
presence of `date-time`. -/
def dateStep (d : DFrame) : DFrame :=
  if "date-time" ∈ d.cols then setColDerived "date" dateOfDatetime "date-time" d else d

/-- The column transforms of `clean_eq_df` in source order (lines 127-148):
epiid, felt?, date-time, date, then the four numeric coercions. -/
def cleanedFrame (df : DFrame) : DFrame :=
  transformCol "magnitude" toNumericCoerce
    (transformCol "depth" toNumericCoerce
      (transformCol "longitude" toNumericCoerce
        (transformCol "latitude" toNumericCoerce
          (dateStep
            (transformCol "date-time" datetimeClean
              (transformCol "felt?" feltClean
                (transformCol "epiid" epiidClean (afterRename df))))))))

/-- Embedding of `keep = [c for c in ESSENTIAL_COLS if c in df.columns]` (line 151). -/
def keepCols (df : DFrame) : List String :=
  ESSENTIAL_COLS.filter (fun c => (cleanedFrame df).cols.contains c)

/-- Embedding of `clean_eq_df` (pipeline_utils.py lines 104-159). -/
def clean_eq_df (df : DFrame) : Except String DFrame :=
  if (df.rows.isEmpty || df.cols.isEmpty) then Except.ok ⟨ESSENTIAL_COLS, []⟩ else
  if (keepCols df).isEmpty then Except.ok ⟨ESSENTIAL_COLS, []⟩ else
  match dropnaSubset ["epiid", "latitude", "longitude"]
      (selectCols (keepCols df) (cleanedFrame df)) with
  | Except.error e => Except.error e
  | Except.ok out =>
    Except.ok (selectCols ESSENTIAL_COLS
      (ESSENTIAL_COLS.foldl (fun acc c => addNAColIfAbsent c acc) out))

theorem selectCols_cols (ks : List String) (d : DFrame) : (selectCols ks d).cols = ks := rfl

theorem selectCols_rows (ks : List String) (d : DFrame) : (selectCols ks d).rows = d.rows := rfl

/-- Embedding of `dropnaSubset` on a frame containing the whole subset filters the rows
on presence of the subset cells. -/
theorem dropnaSubset_ok (sub : List String) (d : DFrame)
    (h : sub.all (fun c => d.cols.contains c) = true) :
    dropnaSubset sub d =
      Except.ok ⟨d.cols, d.rows.filter
        (fun r => sub.all (fun c => !(cellv r c == Val.vna)))⟩ := by
  unfold dropnaSubset
  rw [if_pos h]

theorem transformCol_cols (c : String) (f : Val → Val) (d : DFrame) :
    (transformCol c f d).cols = d.cols := by
  unfold transformCol
  split <;> rfl

theorem mem_dateStep_cols (x : String) (d : DFrame) (hx : x ∈ d.cols) :
    x ∈ (dateStep d).cols := by
  unfold dateStep
  split
  · unfold setColDerived
    simp only
    split
    · exact hx
    · exact List.mem_append_left _ hx
  · exact hx

/-- Column membership survives the whole transform chain of
`cleanedFrame`. -/
theorem mem_cleanedFrame_cols (df : DFrame) (x : String)
    (hx : x ∈ (afterRename df).cols) : x ∈ (cleanedFrame df).cols := by
  unfold cleanedFrame
  rw [transformCol_cols, transformCol_cols, transformCol_cols, transformCol_cols]
  exact mem_dateStep_cols x _ (by
    rw [transformCol_cols, transformCol_cols, transformCol_cols]
    exact hx)

theorem lookup_setCell_ne (c k : String) (v : Val) (hne : k ≠ c) :
    ∀ r : List (String × Val), (setCell c v r).lookup k = r.lookup k := by
  intro r
  induction r with
  | nil =>
    simp [setCell, List.lookup, beq_eq_false_iff_ne.mpr hne]
  | cons kv rest ih =>
    obtain ⟨k1, v1⟩ := kv
    by_cases hkv : k1 = c
    · subst hkv
      simp only [setCell, if_pos rfl]
      simp [List.lookup, beq_eq_false_iff_ne.mpr hne]
    · simp only [setCell]
      rw [if_neg (by simpa using hkv)]
      cases hb : (k == k1) with
      | true => simp [List.lookup, hb]
      | false => simp [List.lookup, hb, ih]

/-- Adding missing essential columns keeps the epiid/latitude/longitude
cells of every row intact, provided those columns are already present. -/
theorem fold_addNA_preserves (cs K : List String) (R : List (List (String × Val)))
    (he : "epiid" ∈ K) (hla : "latitude" ∈ K) (hlo : "longitude" ∈ K)
    (hP : ∀ r ∈ R, cellv r "epiid" ≠ Val.vna ∧ cellv r "latitude" ≠ Val.vna ∧
      cellv r "longitude" ≠ Val.vna) :
    ∀ r ∈ (cs.foldl (fun a c => addNAColIfAbsent c a) ⟨K, R⟩).rows,
      cellv r "epiid" ≠ Val.vna ∧ cellv r "latitude" ≠ Val.vna ∧
        cellv r "longitude" ≠ Val.vna := by
  induction cs generalizing K R with
  | nil => exact hP
  | cons c rest ih =>
    rw [List.foldl_cons]
    by_cases hc : c ∈ K
    · have heq : addNAColIfAbsent c ⟨K, R⟩ = DFrame.mk K R := by
        unfold addNAColIfAbsent
        rw [if_pos hc]
      rw [heq]
      exact ih K R he hla hlo hP
    · have heq : addNAColIfAbsent c ⟨K, R⟩ =
          DFrame.mk (K ++ [c]) (R.map (setCell c Val.vna)) := by
        unfold addNAColIfAbsent
        rw [if_neg hc]
      rw [heq]
      refine ih (K ++ [c]) (R.map (setCell c Val.vna))
        (List.mem_append_left _ he) (List.mem_append_left _ hla)
        (List.mem_append_left _ hlo) ?_
      intro r hr
      obtain ⟨r0, hr0, rfl⟩ := List.mem_map.mp hr
      have hne1 : "epiid" ≠ c := fun hh => hc (hh ▸ he)
      have hne2 : "latitude" ≠ c := fun hh => hc (hh ▸ hla)
      have hne3 : "longitude" ≠ c := fun hh => hc (hh ▸ hlo)
      have e1 : cellv (setCell c Val.vna r0) "epiid" = cellv r0 "epiid" := by
        unfold cellv
        rw [lookup_setCell_ne c "epiid" Val.vna hne1 r0]
      have e2 : cellv (setCell c Val.vna r0) "latitude" = cellv r0 "latitude" := by
        unfold cellv
        rw [lookup_setCell_ne c "latitude" Val.vna hne2 r0]
      have e3 : cellv (setCell c Val.vna r0) "longitude" = cellv r0 "longitude" := by
        unfold cellv
        rw [lookup_setCell_ne c "longitude" Val.vna hne3 r0]
      rw [e1, e2, e3]
      exact hP r0 hr0

/-- C10. `clean_eq_df` postcondition: for every input frame with at least
one row and one column that, after the Region drop and the raw-column
rename, contains `epiid`, `latitude` and `longitude` columns, the cleaning
succeeds, the output has exactly the eight `ESSENTIAL_COLS` in order, and
no output row has a missing epiid, latitude or longitude cell. -/
theorem clean_eq_df_post (df : DFrame)
    (hrows : df.rows ≠ []) (hcols : df.cols ≠ [])
    (hepi : "epiid" ∈ (afterRename df).cols)
    (hlat : "latitude" ∈ (afterRename df).cols)
    (hlon : "longitude" ∈ (afterRename df).cols) :
    ∃ out, clean_eq_df df = Except.ok out ∧ out.cols = ESSENTIAL_COLS ∧
      ∀ r ∈ out.rows, cellv r "epiid" ≠ Val.vna ∧ cellv r "latitude" ≠ Val.vna ∧
        cellv r "longitude" ≠ Val.vna := by
  have h9e := mem_cleanedFrame_cols df _ hepi
  have h9la := mem_cleanedFrame_cols df _ hlat
  have h9lo := mem_cleanedFrame_cols df _ hlon
  have hke : "epiid" ∈ keepCols df :=
    List.mem_filter.mpr ⟨by decide, List.elem_eq_true_of_mem h9e⟩
  have hkla : "latitude" ∈ keepCols df :=
    List.mem_filter.mpr ⟨by decide, List.elem_eq_true_of_mem h9la⟩
  have hklo : "longitude" ∈ keepCols df :=
    List.mem_filter.mpr ⟨by decide, List.elem_eq_true_of_mem h9lo⟩
  have hcond1 : ¬((df.rows.isEmpty || df.cols.isEmpty) = true) := by
    cases hr2 : df.rows with
    | nil => exact absurd hr2 hrows
    | cons a l =>
      cases hc2 : df.cols with
      | nil => exact absurd hc2 hcols
      | cons b m => simp
  have hcond2 : ¬((keepCols df).isEmpty = true) := by
    cases hk : keepCols df with
    | nil =>
      rw [hk] at hke
      cases hke
    | cons a l => simp
  have hsubok : (["epiid", "latitude", "longitude"] : List String).all
      (fun c => (selectCols (keepCols df) (cleanedFrame df)).cols.contains c) = true := by
    rw [selectCols_cols]
    simp only [List.all_cons, List.all_nil, Bool.and_eq_true, Bool.and_true]
    exact ⟨List.elem_eq_true_of_mem hke, List.elem_eq_true_of_mem hkla,
      List.elem_eq_true_of_mem hklo⟩
  have hdrop := dropnaSubset_ok ["epiid", "latitude", "longitude"]
    (selectCols (keepCols df) (cleanedFrame df)) hsubok
  rw [selectCols_cols, selectCols_rows] at hdrop
  have hmain : clean_eq_df df = Except.ok (selectCols ESSENTIAL_COLS
      (ESSENTIAL_COLS.foldl (fun acc c => addNAColIfAbsent c acc)
        ⟨keepCols df, (cleanedFrame df).rows.filter
          (fun r => (["epiid", "latitude", "longitude"] : List String).all
            (fun c => !(cellv r c == Val.vna)))⟩)) := by
    unfold clean_eq_df
    rw [if_neg hcond1, if_neg hcond2]
    rw [hdrop]
  refine ⟨selectCols ESSENTIAL_COLS
      (ESSENTIAL_COLS.foldl (fun acc c => addNAColIfAbsent c acc)
        ⟨keepCols df, (cleanedFrame df).rows.filter
          (fun r => (["epiid", "latitude", "longitude"] : List String).all
            (fun c => !(cellv r c == Val.vna)))⟩), hmain, rfl, ?_⟩
  intro r hr
  rw [selectCols_rows] at hr
  refine fold_addNA_preserves ESSENTIAL_COLS (keepCols df)
    ((cleanedFrame df).rows.filter
      (fun r2 => (["epiid", "latitude", "longitude"] : List String).all
        (fun c => !(cellv r2 c == Val.vna)))) hke hkla hklo ?_ r hr
  intro r0 hr0
  have hpred := (List.mem_filter.mp hr0).2
  simp only [List.all_cons, List.all_nil, Bool.and_eq_true, Bool.and_true,
    Bool.not_eq_true', beq_eq_false_iff_ne] at hpred
  exact hpred

/-- A one-row raw GSI frame for the cleaning witness. -/
def gsiSample : DFrame :=
  ⟨["epiid", "DateTime", "Mag", "Lat", "Long", "Depth(Km)", "Type", "Region"],
   [[("epiid", Val.vstr "\x27e1\x27"), ("DateTime", Val.vstr "2024-01-02T03:04:05"),
     ("Mag", Val.vnum 3), ("Lat", Val.vstr "32.1"), ("Long", Val.vnum 35),
     ("Depth(Km)", Val.vnum 10), ("Type", Val.vstr "EQ"), ("Region", Val.vstr "x")]]⟩

/-- Closed witness for `clean_eq_df_post`. -/
theorem clean_eq_df_post_witness :
    ∃ out, clean_eq_df gsiSample = Except.ok out ∧ out.cols = ESSENTIAL_COLS ∧
      ∀ r ∈ out.rows, cellv r "epiid" ≠ Val.vna ∧ cellv r "latitude" ≠ Val.vna ∧
        cellv r "longitude" ≠ Val.vna :=
  clean_eq_df_post gsiSample (by decide) (by decide) (by decide) (by decide) (by decide)
